import Mathlib

/-!
# Verification of the tiled raster acquisition pipeline

Shallow embedding of the grid planner, export-request builder,
download-parameter sizing, region parser, radiometric-calibration lookup,
MODIS cloud mask, composite date window, tile downloader and the MODIS
sinusoidal SRS repair hook of the `llm-geoprocessing` repository
(`gee_geoprocess.py` and `geoprocess_agent.py`), together with proofs of
the specified properties.

Python floats are modelled as exact rationals (`ℚ`); `math.floor`/`math.ceil`
are `Int.floor`/`Int.ceil`.
-/

namespace GeoProc

/-- String containment test, modelling Python's `pat in s`. -/
def strContains (s pat : String) : Bool := decide (pat.toList <:+: s.toList)

/-- String prefix test, modelling Python's `s.startswith(pat)`. -/
def strStarts (s pat : String) : Bool := decide (pat.toList <+: s.toList)

/-- Python's `round` builtin on a rational value: round half to even. -/
def pyRound (q : ℚ) : ℤ :=
  if q - ⌊q⌋ < 1/2 then ⌊q⌋
  else if q - ⌊q⌋ > 1/2 then ⌊q⌋ + 1
  else if ⌊q⌋ % 2 = 0 then ⌊q⌋ else ⌊q⌋ + 1

/-- `_align_to_grid` (gee_geoprocess.py:226-234): snap the grid origin and
outer bounds to pixel-size multiples.  Returns
`(origin_x, origin_y, grid_minx, grid_miny, grid_maxx, grid_maxy)`. -/
def align_to_grid (minx miny maxx maxy scale : ℚ) : ℚ × ℚ × ℚ × ℚ × ℚ × ℚ :=
  let origin_x : ℚ := ⌊minx / scale⌋ * scale
  let origin_y : ℚ := ⌈maxy / scale⌉ * scale
  (origin_x, origin_y, origin_x, ⌊miny / scale⌋ * scale, ⌈maxx / scale⌉ * scale, origin_y)

/-- The per-request grid metadata dictionary built by `_tile_rects`
(gee_geoprocess.py:256-266). -/
structure GridMeta where
  crs : String
  crs_transform : List ℚ
  tile_size_px : ℕ
  rows : ℕ
  cols : ℕ
  origin_x : ℚ
  origin_y : ℚ
  tile_w_m : ℚ
  tile_h_m : ℚ
deriving Repr, DecidableEq

/-- One tile descriptor from `_tile_rects`: grid position `(r, c)` and the
rectangle `[x_left, y_bot, x_right, y_top]` in target-CRS units. -/
structure TileRec where
  r : ℕ
  c : ℕ
  xLeft : ℚ
  yBot : ℚ
  xRight : ℚ
  yTop : ℚ
deriving Repr, DecidableEq

/-- The tile built for grid cell `(r, c)` inside `_tile_rects`'s double loop
(gee_geoprocess.py:268-289). -/
def tileAt (origin_x origin_y tile_w tile_h : ℚ) (r c : ℕ) : TileRec :=
  { r := r
    c := c
    xLeft := origin_x + c * tile_w
    yBot := origin_y - r * tile_h - tile_h
    xRight := origin_x + c * tile_w + tile_w
    yTop := origin_y - r * tile_h }

/-- `_tile_rects` (gee_geoprocess.py:236-291): plan the pixel-aligned tile
grid over the projected bounding box `(minx, miny, maxx, maxy)` and enumerate
all tile rectangles row-major (north-to-south, then west-to-east). -/
def tile_rects (crs : String) (minx miny maxx maxy scale : ℚ) (tile_size : ℕ) :
    List TileRec × GridMeta :=
  let a := align_to_grid minx miny maxx maxy scale
  let origin_x := a.1
  let origin_y := a.2.1
  let gx0 := a.2.2.1
  let gy0 := a.2.2.2.1
  let gx1 := a.2.2.2.2.1
  let gy1 := a.2.2.2.2.2
  let tile_w : ℚ := (tile_size : ℚ) * scale
  let tile_h : ℚ := (tile_size : ℚ) * scale
  let cols : ℕ := (max ⌈(gx1 - gx0) / tile_w⌉ 1).toNat
  let rows : ℕ := (max ⌈(gy1 - gy0) / tile_h⌉ 1).toNat
  let tiles := (List.range rows).flatMap fun r =>
    (List.range cols).map fun c => tileAt origin_x origin_y tile_w tile_h r c
  (tiles,
   { crs := crs
     crs_transform := [scale, 0, origin_x, 0, -scale, origin_y]
     tile_size_px := tile_size
     rows := rows
     cols := cols
     origin_x := origin_x
     origin_y := origin_y
     tile_w_m := tile_w
     tile_h_m := tile_h })

/-- Closed membership of a point in a tile rectangle. -/
def inClosedTile (t : TileRec) (x y : ℚ) : Prop :=
  t.xLeft ≤ x ∧ x ≤ t.xRight ∧ t.yBot ≤ y ∧ y ≤ t.yTop

/-- Membership of a point in a tile rectangle's interior. -/
def inOpenTile (t : TileRec) (x y : ℚ) : Prop :=
  t.xLeft < x ∧ x < t.xRight ∧ t.yBot < y ∧ y < t.yTop

instance (t : TileRec) (x y : ℚ) : Decidable (inClosedTile t x y) := by
  unfold inClosedTile; infer_instance

instance (t : TileRec) (x y : ℚ) : Decidable (inOpenTile t x y) := by
  unfold inOpenTile; infer_instance

theorem range_flatMap_map {α : Type} (C : ℕ) (f : ℕ → ℕ → α) :
    ∀ R : ℕ, (List.range R).flatMap (fun r => (List.range C).map (f r)) =
      (List.range (R * C)).map (fun i => f (i / C) (i % C))
  | 0 => by simp
  | R + 1 => by
    rw [List.range_succ, List.flatMap_append, range_flatMap_map C f R,
      Nat.succ_mul, List.range_add, List.map_append, List.map_map]
    congr 1
    simp only [List.flatMap_cons, List.flatMap_nil, List.append_nil]
    refine List.map_congr_left fun j hj => ?_
    rw [List.mem_range] at hj
    have hC : 0 < C := Nat.pos_of_ne_zero fun h => by omega
    have hdiv : (R * C + j) / C = R := by
      rw [Nat.mul_comm R C, Nat.mul_add_div hC, Nat.div_eq_of_lt hj, Nat.add_zero]
    have hmod : (R * C + j) % C = j := by
      rw [Nat.mul_comm R C, Nat.mul_add_mod, Nat.mod_eq_of_lt hj]
    simp [Function.comp, hdiv, hmod]

theorem tile_rects_meta (crs : String) (minx miny maxx maxy scale : ℚ) (ts : ℕ) :
    (tile_rects crs minx miny maxx maxy scale ts).2 =
      { crs := crs
        crs_transform := [scale, 0, ⌊minx / scale⌋ * scale, 0, -scale, ⌈maxy / scale⌉ * scale]
        tile_size_px := ts
        rows := (max ⌈(⌈maxy / scale⌉ * scale - ⌊miny / scale⌋ * scale) / ((ts : ℚ) * scale)⌉ 1).toNat
        cols := (max ⌈(⌈maxx / scale⌉ * scale - ⌊minx / scale⌋ * scale) / ((ts : ℚ) * scale)⌉ 1).toNat
        origin_x := ⌊minx / scale⌋ * scale
        origin_y := ⌈maxy / scale⌉ * scale
        tile_w_m := (ts : ℚ) * scale
        tile_h_m := (ts : ℚ) * scale } := rfl

theorem tile_rects_cols_pos (crs : String) (minx miny maxx maxy scale : ℚ) (ts : ℕ) :
    0 < (tile_rects crs minx miny maxx maxy scale ts).2.cols := by
  have h : (0 : ℤ) < max ⌈(⌈maxx / scale⌉ * scale - ⌊minx / scale⌋ * scale) / ((ts : ℚ) * scale)⌉ 1 :=
    lt_of_lt_of_le Int.one_pos (le_max_right _ _)
  rw [tile_rects_meta]
  dsimp only
  generalize hM : max ⌈(⌈maxx / scale⌉ * scale - ⌊minx / scale⌋ * scale) / ((ts : ℚ) * scale)⌉ (1 : ℤ) = M at h ⊢
  omega

theorem tile_rects_rows_pos (crs : String) (minx miny maxx maxy scale : ℚ) (ts : ℕ) :
    0 < (tile_rects crs minx miny maxx maxy scale ts).2.rows := by
  have h : (0 : ℤ) < max ⌈(⌈maxy / scale⌉ * scale - ⌊miny / scale⌋ * scale) / ((ts : ℚ) * scale)⌉ 1 :=
    lt_of_lt_of_le Int.one_pos (le_max_right _ _)
  rw [tile_rects_meta]
  dsimp only
  generalize hM : max ⌈(⌈maxy / scale⌉ * scale - ⌊miny / scale⌋ * scale) / ((ts : ℚ) * scale)⌉ (1 : ℤ) = M at h ⊢
  omega

theorem tile_rects_fst (crs : String) (minx miny maxx maxy scale : ℚ) (ts : ℕ) :
    (tile_rects crs minx miny maxx maxy scale ts).1 =
      (List.range ((tile_rects crs minx miny maxx maxy scale ts).2.rows *
          (tile_rects crs minx miny maxx maxy scale ts).2.cols)).map
        (fun i => tileAt (⌊minx / scale⌋ * scale) (⌈maxy / scale⌉ * scale)
          ((ts : ℚ) * scale) ((ts : ℚ) * scale)
          (i / (tile_rects crs minx miny maxx maxy scale ts).2.cols)
          (i % (tile_rects crs minx miny maxx maxy scale ts).2.cols)) := by
  rw [tile_rects_meta]
  show (List.range _).flatMap _ = _
  exact range_flatMap_map _ _ _

theorem inClosedTile_tileAt_iff (ox oy w h : ℚ) (r c : ℕ) (x y : ℚ) :
    inClosedTile (tileAt ox oy w h r c) x y ↔
      ((c : ℚ) * w ≤ x - ox ∧ x - ox ≤ ((c : ℚ) + 1) * w ∧
       (r : ℚ) * h ≤ oy - y ∧ oy - y ≤ ((r : ℚ) + 1) * h) := by
  simp only [inClosedTile, tileAt]
  constructor <;> rintro ⟨h1, h2, h3, h4⟩ <;>
    exact ⟨by linarith, by linarith, by linarith, by linarith⟩

theorem inOpenTile_tileAt_iff (ox oy w h : ℚ) (r c : ℕ) (x y : ℚ) :
    inOpenTile (tileAt ox oy w h r c) x y ↔
      ((c : ℚ) * w < x - ox ∧ x - ox < ((c : ℚ) + 1) * w ∧
       (r : ℚ) * h < oy - y ∧ oy - y < ((r : ℚ) + 1) * h) := by
  simp only [inOpenTile, tileAt]
  constructor <;> rintro ⟨h1, h2, h3, h4⟩ <;>
    exact ⟨by linarith, by linarith, by linarith, by linarith⟩

theorem tileAt_interior_overlap_eq (ox oy w h : ℚ) (hw : 0 < w) (hh : 0 < h)
    (r₁ c₁ r₂ c₂ : ℕ) (x y : ℚ)
    (h₁ : inOpenTile (tileAt ox oy w h r₁ c₁) x y)
    (h₂ : inOpenTile (tileAt ox oy w h r₂ c₂) x y) :
    r₁ = r₂ ∧ c₁ = c₂ := by
  rw [inOpenTile_tileAt_iff] at h₁ h₂
  obtain ⟨a1, a2, a3, a4⟩ := h₁
  obtain ⟨b1, b2, b3, b4⟩ := h₂
  have hc1 : (c₁ : ℚ) < (c₂ : ℚ) + 1 := by
    have := a1.trans b2
    exact lt_of_mul_lt_mul_right (by linarith) hw.le
  have hc2 : (c₂ : ℚ) < (c₁ : ℚ) + 1 := by
    have := b1.trans a2
    exact lt_of_mul_lt_mul_right (by linarith) hw.le
  have hr1 : (r₁ : ℚ) < (r₂ : ℚ) + 1 := by
    have := a3.trans b4
    exact lt_of_mul_lt_mul_right (by linarith) hh.le
  have hr2 : (r₂ : ℚ) < (r₁ : ℚ) + 1 := by
    have := b3.trans a4
    exact lt_of_mul_lt_mul_right (by linarith) hh.le
  have hc1' : c₁ < c₂ + 1 := by exact_mod_cast hc1
  have hc2' : c₂ < c₁ + 1 := by exact_mod_cast hc2
  have hr1' : r₁ < r₂ + 1 := by exact_mod_cast hr1
  have hr2' : r₂ < r₁ + 1 := by exact_mod_cast hr2
  omega

theorem exists_cell_index (w : ℚ) (hw : 0 < w) (C : ℕ) (hC : 0 < C) (u : ℚ)
    (h0 : 0 ≤ u) (h1 : u ≤ (C : ℚ) * w) :
    ∃ c < C, (c : ℚ) * w ≤ u ∧ u ≤ ((c : ℚ) + 1) * w := by
  by_cases hk : ⌊u / w⌋ < (C : ℤ)
  · refine ⟨⌊u / w⌋.toNat, ?_, ?_, ?_⟩
    · have h0' : 0 ≤ ⌊u / w⌋ := Int.floor_nonneg.mpr (div_nonneg h0 hw.le)
      omega
    · have h0' : 0 ≤ ⌊u / w⌋ := Int.floor_nonneg.mpr (div_nonneg h0 hw.le)
      have hfl : ((⌊u / w⌋ : ℚ)) ≤ u / w := Int.floor_le _
      have : ((⌊u / w⌋.toNat : ℚ)) = ((⌊u / w⌋ : ℚ)) := by
        exact_mod_cast congrArg (Int.cast : ℤ → ℚ) (Int.toNat_of_nonneg h0')
      rw [this]
      calc ((⌊u / w⌋ : ℚ)) * w ≤ (u / w) * w := by
            exact mul_le_mul_of_nonneg_right hfl hw.le
        _ = u := div_mul_cancel₀ u hw.ne'
    · have h0' : 0 ≤ ⌊u / w⌋ := Int.floor_nonneg.mpr (div_nonneg h0 hw.le)
      have hfl : u / w < (⌊u / w⌋ : ℚ) + 1 := Int.lt_floor_add_one _
      have hcast : ((⌊u / w⌋.toNat : ℚ)) = ((⌊u / w⌋ : ℚ)) := by
        exact_mod_cast congrArg (Int.cast : ℤ → ℚ) (Int.toNat_of_nonneg h0')
      rw [hcast]
      have := mul_lt_mul_of_pos_right hfl hw
      rw [div_mul_cancel₀ u hw.ne'] at this
      linarith
  · -- the right boundary point: ⌊u/w⌋ ≥ C forces u = C * w
    push_neg at hk
    have hCle : ((C : ℚ)) ≤ u / w := by
      have : ((C : ℚ)) ≤ ((⌊u / w⌋ : ℚ)) := by exact_mod_cast hk
      exact this.trans (Int.floor_le _)
    have hge : (C : ℚ) * w ≤ u := by
      have := mul_le_mul_of_nonneg_right hCle hw.le
      rwa [div_mul_cancel₀ u hw.ne'] at this
    have hu : u = (C : ℚ) * w := le_antisymm h1 hge
    refine ⟨C - 1, by omega, ?_, ?_⟩
    · have : ((C - 1 : ℕ) : ℚ) ≤ (C : ℚ) := by
        exact_mod_cast Nat.cast_le.mpr (Nat.sub_le C 1)
      rw [hu]
      exact mul_le_mul_of_nonneg_right this hw.le
    · have : ((C - 1 : ℕ) : ℚ) + 1 = (C : ℚ) := by
        have h1' : 1 ≤ C := hC
        push_cast [Nat.cast_sub h1']
        ring
      rw [hu, this]

theorem mem_tileList_iff (ox oy w : ℚ) (R C : ℕ) (hC : 0 < C) (t : TileRec) :
    t ∈ (List.range (R * C)).map (fun i => tileAt ox oy w w (i / C) (i % C)) ↔
      ∃ r < R, ∃ c < C, t = tileAt ox oy w w r c := by
  rw [List.mem_map]
  constructor
  · rintro ⟨i, hi, rfl⟩
    rw [List.mem_range] at hi
    exact ⟨i / C, Nat.div_lt_of_lt_mul (by rw [Nat.mul_comm C R]; exact hi), i % C,
      Nat.mod_lt _ hC, rfl⟩
  · rintro ⟨r, hr, c, hc, rfl⟩
    refine ⟨r * C + c, ?_, ?_⟩
    · rw [List.mem_range]
      calc r * C + c < r * C + C := by omega
        _ = (r + 1) * C := by ring
        _ ≤ R * C := Nat.mul_le_mul_right C hr
    · have hdiv : (r * C + c) / C = r := by
        rw [Nat.mul_comm r C, Nat.mul_add_div hC, Nat.div_eq_of_lt hc, Nat.add_zero]
      have hmod : (r * C + c) % C = c := by
        rw [Nat.mul_comm r C, Nat.mul_add_mod, Nat.mod_eq_of_lt hc]
      rw [hdiv, hmod]

theorem tileList_union_iff (ox oy w : ℚ) (hw : 0 < w) (R C : ℕ)
    (hR : 0 < R) (hC : 0 < C) (x y : ℚ) :
    (∃ r < R, ∃ c < C, inClosedTile (tileAt ox oy w w r c) x y) ↔
      (ox ≤ x ∧ x ≤ ox + (C : ℚ) * w ∧ oy - (R : ℚ) * w ≤ y ∧ y ≤ oy) := by
  constructor
  · rintro ⟨r, hr, c, hc, ht⟩
    rw [inClosedTile_tileAt_iff] at ht
    obtain ⟨h1, h2, h3, h4⟩ := ht
    have hcw : (0 : ℚ) ≤ (c : ℚ) * w := mul_nonneg (Nat.cast_nonneg c) hw.le
    have hrw : (0 : ℚ) ≤ (r : ℚ) * w := mul_nonneg (Nat.cast_nonneg r) hw.le
    have hcC : ((c : ℚ) + 1) * w ≤ (C : ℚ) * w := by
      have : ((c : ℚ) + 1) ≤ (C : ℚ) := by exact_mod_cast Nat.succ_le_of_lt hc
      exact mul_le_mul_of_nonneg_right this hw.le
    have hrR : ((r : ℚ) + 1) * w ≤ (R : ℚ) * w := by
      have : ((r : ℚ) + 1) ≤ (R : ℚ) := by exact_mod_cast Nat.succ_le_of_lt hr
      exact mul_le_mul_of_nonneg_right this hw.le
    exact ⟨by linarith, by linarith, by linarith, by linarith⟩
  · rintro ⟨h1, h2, h3, h4⟩
    obtain ⟨c, hc, hc1, hc2⟩ :=
      exists_cell_index w hw C hC (x - ox) (by linarith) (by linarith)
    obtain ⟨r, hr, hr1, hr2⟩ :=
      exists_cell_index w hw R hR (oy - y) (by linarith) (by linarith)
    exact ⟨r, hr, c, hc, (inClosedTile_tileAt_iff ox oy w w r c x y).mpr ⟨hc1, hc2, hr1, hr2⟩⟩

/-- **C1**: for every projected bounding box with `minx < maxx`, `miny < maxy`,
`scale > 0` and `tile_size > 0`, the grid planner `_tile_rects` sets
`originX = floor(minx/scale)*scale`, `originY = ceil(maxy/scale)*scale`,
computes `cols = max(ceil((ceil(maxx/scale)*scale - originX)/(tileSizePx*scale)), 1)`
and `rows = max(ceil((originY - floor(miny/scale)*scale)/(tileSizePx*scale)), 1)`,
and enumerates exactly `rows*cols` tile rectangles row-major (north-to-south,
then west-to-east) whose interiors are pairwise disjoint, which leave no gaps
(their union is exactly the aligned grid rectangle), and whose union contains
the projected bounding box. -/
theorem grid_planner_correct
    (crs : String) (minx miny maxx maxy scale : ℚ) (tile_size : ℕ)
    (tiles : List TileRec) (meta : GridMeta)
    (hplan : tile_rects crs minx miny maxx maxy scale tile_size = (tiles, meta))
    (hx : minx < maxx) (hy : miny < maxy) (hs : 0 < scale) (ht : 0 < tile_size) :
    meta.origin_x = ⌊minx / scale⌋ * scale ∧
    meta.origin_y = ⌈maxy / scale⌉ * scale ∧
    (meta.cols : ℤ) = max ⌈(⌈maxx / scale⌉ * scale - meta.origin_x) / ((tile_size : ℚ) * scale)⌉ 1 ∧
    (meta.rows : ℤ) = max ⌈(meta.origin_y - ⌊miny / scale⌋ * scale) / ((tile_size : ℚ) * scale)⌉ 1 ∧
    tiles.length = meta.rows * meta.cols ∧
    (∀ i (hi : i < tiles.length),
      tiles.get ⟨i, hi⟩ =
        tileAt meta.origin_x meta.origin_y ((tile_size : ℚ) * scale) ((tile_size : ℚ) * scale)
          (i / meta.cols) (i % meta.cols)) ∧
    (∀ t₁ ∈ tiles, ∀ t₂ ∈ tiles, t₁ ≠ t₂ →
      ∀ x y : ℚ, inOpenTile t₁ x y → ¬ inOpenTile t₂ x y) ∧
    (∀ x y : ℚ,
      (∃ t ∈ tiles, inClosedTile t x y) ↔
        (meta.origin_x ≤ x ∧ x ≤ meta.origin_x + (meta.cols : ℚ) * ((tile_size : ℚ) * scale) ∧
         meta.origin_y - (meta.rows : ℚ) * ((tile_size : ℚ) * scale) ≤ y ∧ y ≤ meta.origin_y)) ∧
    (∀ x y : ℚ, minx ≤ x → x ≤ maxx → miny ≤ y → y ≤ maxy →
      ∃ t ∈ tiles, inClosedTile t x y) := by
  have hCpos := tile_rects_cols_pos crs minx miny maxx maxy scale tile_size
  have hRpos := tile_rects_rows_pos crs minx miny maxx maxy scale tile_size
  have hfst := tile_rects_fst crs minx miny maxx maxy scale tile_size
  have htiles : tiles = (tile_rects crs minx miny maxx maxy scale tile_size).1 := by
    rw [hplan]
  have hmeta : meta = (tile_rects crs minx miny maxx maxy scale tile_size).2 := by
    rw [hplan]
  subst htiles
  subst hmeta
  rw [tile_rects_meta] at hCpos hRpos ⊢
  rw [hfst, tile_rects_meta]
  dsimp only at hCpos hRpos ⊢
  set w : ℚ := (tile_size : ℚ) * scale with hw_def
  have hwpos : 0 < w := by
    have : (0 : ℚ) < (tile_size : ℚ) := by exact_mod_cast ht
    exact mul_pos this hs
  set ox : ℚ := ⌊minx / scale⌋ * scale with hox_def
  set oy : ℚ := ⌈maxy / scale⌉ * scale with hoy_def
  set C : ℕ := (max ⌈(⌈maxx / scale⌉ * scale - ox) / w⌉ 1).toNat with hC_def
  set R : ℕ := (max ⌈(oy - ⌊miny / scale⌋ * scale) / w⌉ 1).toNat with hR_def
  have hCint : ((C : ℕ) : ℤ) = max ⌈(⌈maxx / scale⌉ * scale - ox) / w⌉ 1 := by
    rw [hC_def]
    exact Int.toNat_of_nonneg (le_trans Int.one_nonneg (le_max_right _ _))
  have hRint : ((R : ℕ) : ℤ) = max ⌈(oy - ⌊miny / scale⌋ * scale) / w⌉ 1 := by
    rw [hR_def]
    exact Int.toNat_of_nonneg (le_trans Int.one_nonneg (le_max_right _ _))
  -- the enumerated list, via the row-major characterisation
  have hmem : ∀ t : TileRec,
      t ∈ (List.range (R * C)).map (fun i => tileAt ox oy w w (i / C) (i % C)) ↔
        ∃ r < R, ∃ c < C, t = tileAt ox oy w w r c :=
    fun t => mem_tileList_iff ox oy w R C hCpos t
  have hunion : ∀ x y : ℚ,
      (∃ t ∈ (List.range (R * C)).map (fun i => tileAt ox oy w w (i / C) (i % C)),
        inClosedTile t x y) ↔
        (ox ≤ x ∧ x ≤ ox + (C : ℚ) * w ∧ oy - (R : ℚ) * w ≤ y ∧ y ≤ oy) := by
    intro x y
    rw [← tileList_union_iff ox oy w hwpos R C hRpos hCpos x y]
    constructor
    · rintro ⟨t, htm, hP⟩
      obtain ⟨r, hr, c, hc, rfl⟩ := (hmem t).mp htm
      exact ⟨r, hr, c, hc, hP⟩
    · rintro ⟨r, hr, c, hc, hP⟩
      exact ⟨tileAt ox oy w w r c, (hmem _).mpr ⟨r, hr, c, hc, rfl⟩, hP⟩
  -- bounding inequalities of the aligned grid
  have hox_le : ox ≤ minx := by
    have h1 : ((⌊minx / scale⌋ : ℤ) : ℚ) ≤ minx / scale := Int.floor_le _
    have h2 := mul_le_mul_of_nonneg_right h1 hs.le
    rwa [div_mul_cancel₀ minx hs.ne'] at h2
  have hmaxy_le : maxy ≤ oy := by
    have h1 : maxy / scale ≤ ((⌈maxy / scale⌉ : ℤ) : ℚ) := Int.le_ceil _
    have h2 := mul_le_mul_of_nonneg_right h1 hs.le
    rwa [div_mul_cancel₀ maxy hs.ne'] at h2
  have hmaxx_le : maxx ≤ ⌈maxx / scale⌉ * scale := by
    have h1 : maxx / scale ≤ ((⌈maxx / scale⌉ : ℤ) : ℚ) := Int.le_ceil _
    have h2 := mul_le_mul_of_nonneg_right h1 hs.le
    rwa [div_mul_cancel₀ maxx hs.ne'] at h2
  have hminy_ge : ⌊miny / scale⌋ * scale ≤ miny := by
    have h1 : ((⌊miny / scale⌋ : ℤ) : ℚ) ≤ miny / scale := Int.floor_le _
    have h2 := mul_le_mul_of_nonneg_right h1 hs.le
    rwa [div_mul_cancel₀ miny hs.ne'] at h2
  have hCw : ⌈maxx / scale⌉ * scale - ox ≤ (C : ℚ) * w := by
    have h1 : (⌈maxx / scale⌉ * scale - ox) / w ≤ ((⌈(⌈maxx / scale⌉ * scale - ox) / w⌉ : ℤ) : ℚ) :=
      Int.le_ceil _
    have h2 : ((⌈(⌈maxx / scale⌉ * scale - ox) / w⌉ : ℤ) : ℚ) ≤ ((C : ℕ) : ℚ) := by
      have : (⌈(⌈maxx / scale⌉ * scale - ox) / w⌉ : ℤ) ≤ ((C : ℕ) : ℤ) := by
        rw [hCint]; exact le_max_left _ _
      exact_mod_cast this
    have h3 := mul_le_mul_of_nonneg_right (h1.trans h2) hwpos.le
    rwa [div_mul_cancel₀ _ hwpos.ne'] at h3
  have hRw : oy - ⌊miny / scale⌋ * scale ≤ (R : ℚ) * w := by
    have h1 : (oy - ⌊miny / scale⌋ * scale) / w ≤
        ((⌈(oy - ⌊miny / scale⌋ * scale) / w⌉ : ℤ) : ℚ) := Int.le_ceil _
    have h2 : ((⌈(oy - ⌊miny / scale⌋ * scale) / w⌉ : ℤ) : ℚ) ≤ ((R : ℕ) : ℚ) := by
      have : (⌈(oy - ⌊miny / scale⌋ * scale) / w⌉ : ℤ) ≤ ((R : ℕ) : ℤ) := by
        rw [hRint]; exact le_max_left _ _
      exact_mod_cast this
    have h3 := mul_le_mul_of_nonneg_right (h1.trans h2) hwpos.le
    rwa [div_mul_cancel₀ _ hwpos.ne'] at h3
  refine ⟨rfl, rfl, hCint, hRint, by simp, ?_, ?_, hunion, ?_⟩
  · -- row-major enumeration: the i-th tile sits at grid cell (i / cols, i % cols)
    intro i hi
    simp only [List.get_eq_getElem, List.getElem_map, List.getElem_range]
  · -- pairwise disjoint interiors
    intro t₁ ht₁ t₂ ht₂ hne x y h₁ h₂
    obtain ⟨r₁, hr₁, c₁, hc₁, rfl⟩ := (hmem t₁).mp ht₁
    obtain ⟨r₂, hr₂, c₂, hc₂, rfl⟩ := (hmem t₂).mp ht₂
    obtain ⟨hreq, hceq⟩ := tileAt_interior_overlap_eq ox oy w w hwpos hwpos r₁ c₁ r₂ c₂ x y h₁ h₂
    exact hne (by rw [hreq, hceq])
  · -- the tiles cover the projected bounding box
    intro x y hx1 hx2 hy1 hy2
    refine (hunion x y).mpr ⟨by linarith, by linarith, by linarith, by linarith⟩

/-- Witness for `grid_planner_correct` at bbox `(0,0,3,3)`, `scale = 1`,
`tile_size = 2`: the hypotheses hold, and the planner enumerates
`rows * cols` tiles. -/
theorem grid_planner_correct_witness :
    (0 : ℚ) < 3 ∧ (0 : ℚ) < 1 ∧ (0 : ℕ) < 2 ∧
    (tile_rects "EPSG:32720" 0 0 3 3 1 2).1.length =
      (tile_rects "EPSG:32720" 0 0 3 3 1 2).2.rows *
        (tile_rects "EPSG:32720" 0 0 3 3 1 2).2.cols :=
  ⟨by norm_num, by norm_num, by norm_num,
   (grid_planner_correct "EPSG:32720" 0 0 3 3 1 2
      (tile_rects "EPSG:32720" 0 0 3 3 1 2).1 (tile_rects "EPSG:32720" 0 0 3 3 1 2).2 rfl
      (by norm_num) (by norm_num) (by norm_num) (by norm_num)).2.2.2.2.1⟩

/-- A per-tile export request as assembled in `bands_single`
(gee_geoprocess.py:662-674): the shared `common` dictionary
(`format`, `crs`, `crs_transform`) plus the tile's own region. -/
structure ExportRequest where
  format : String
  crs : String
  crs_transform : List ℚ
  region : TileRec
deriving Repr, DecidableEq

/-- The per-tile export-request loop of `bands_single`
(gee_geoprocess.py:663-672): every request is `dict(common)` with only
`region` varying per tile. -/
def build_tile_requests (crs : String) (crs_transform : List ℚ)
    (tiles : List TileRec) : List ExportRequest :=
  tiles.map fun t =>
    { format := "GEO_TIFF", crs := crs, crs_transform := crs_transform, region := t }

/-- **C2**: in a tiled export batch, every per-tile export request carries the
batch CRS and the six-parameter affine transform
`[scale, 0, originX, 0, -scale, originY]` taken once from the grid metadata;
no tile is issued with a different CRS or transform. -/
theorem export_requests_share_crs_and_transform
    (crs : String) (minx miny maxx maxy scale : ℚ) (tile_size : ℕ)
    (tiles : List TileRec) (meta : GridMeta)
    (hplan : tile_rects crs minx miny maxx maxy scale tile_size = (tiles, meta)) :
    ∀ req ∈ build_tile_requests meta.crs meta.crs_transform tiles,
      req.crs = crs ∧
      req.crs_transform =
        [scale, 0, ⌊minx / scale⌋ * scale, 0, -scale, ⌈maxy / scale⌉ * scale] := by
  intro req hreq
  have hmeta : meta = (tile_rects crs minx miny maxx maxy scale tile_size).2 := by rw [hplan]
  rw [tile_rects_meta] at hmeta
  obtain ⟨t, _, rfl⟩ := List.mem_map.mp hreq
  subst hmeta
  exact ⟨rfl, rfl⟩

/-- Witness for `export_requests_share_crs_and_transform` on the
`(0,0,3,3)`, `scale = 1`, `tile_size = 2` grid: its first export request
carries the grid CRS and transform. -/
theorem export_requests_share_crs_and_transform_witness :
    (⟨"GEO_TIFF", "EPSG:32720", [1, 0, 0, 0, -1, 1], ⟨0, 0, 0, 0, 1, 1⟩⟩ : ExportRequest).crs =
        "EPSG:32720" ∧
    (⟨"GEO_TIFF", "EPSG:32720", [1, 0, 0, 0, -1, 1], ⟨0, 0, 0, 0, 1, 1⟩⟩ :
        ExportRequest).crs_transform =
      [(1 : ℚ), 0, ((⌊(0 : ℚ) / 1⌋ : ℤ) : ℚ) * 1, 0, -1, ((⌈(1 : ℚ) / 1⌉ : ℤ) : ℚ) * 1] := by
  refine export_requests_share_crs_and_transform "EPSG:32720" 0 0 1 1 1 1
    (tile_rects "EPSG:32720" 0 0 1 1 1 1).1 (tile_rects "EPSG:32720" 0 0 1 1 1 1).2 rfl
    _ ?_
  rw [tile_rects_meta, tile_rects_fst, tile_rects_meta]
  simp [build_tile_requests, tileAt]

/-- Failure modes of the tiled endpoints that are relevant to the plan phase. -/
inductive PlanError where
  | tooManyTiles (nTiles maxTiles : ℕ)
deriving Repr, DecidableEq

/-- The tiling phase of the `bands_single` endpoint
(gee_geoprocess.py:654-674): plan the grid with `_tile_rects`, fail with the
`Too many tiles` error when `len(tiles) > max_tiles`, and only otherwise build
the per-tile export requests that are sent to the backend one by one. -/
def bands_single_plan (crs : String) (minx miny maxx maxy scale : ℚ)
    (tile_size max_tiles : ℕ) : Except PlanError (GridMeta × List ExportRequest) :=
  let tm := tile_rects crs minx miny maxx maxy scale tile_size
  let tiles := tm.1
  let meta := tm.2
  if tiles.length > max_tiles then
    .error (.tooManyTiles tiles.length max_tiles)
  else
    .ok (meta, build_tile_requests meta.crs meta.crs_transform tiles)

/-- **C6**: whenever the planned grid has `rows * cols` greater than the
`max_tiles` ceiling, the endpoint fails with the `Too many tiles` error and no
per-tile export request is built, so no download URL is ever requested from
the backend: the failure precedes every export request. -/
theorem too_many_tiles_fails_before_export
    (crs : String) (minx miny maxx maxy scale : ℚ) (tile_size max_tiles : ℕ)
    (hover : (tile_rects crs minx miny maxx maxy scale tile_size).2.rows *
        (tile_rects crs minx miny maxx maxy scale tile_size).2.cols > max_tiles) :
    bands_single_plan crs minx miny maxx maxy scale tile_size max_tiles =
      .error (.tooManyTiles
        ((tile_rects crs minx miny maxx maxy scale tile_size).2.rows *
          (tile_rects crs minx miny maxx maxy scale tile_size).2.cols) max_tiles) := by
  have hlen : (tile_rects crs minx miny maxx maxy scale tile_size).1.length =
      (tile_rects crs minx miny maxx maxy scale tile_size).2.rows *
        (tile_rects crs minx miny maxx maxy scale tile_size).2.cols := by
    rw [tile_rects_fst]
    simp
  unfold bands_single_plan
  rw [if_pos (by rw [hlen]; exact hover)]
  rw [hlen]

/-- Witness for `too_many_tiles_fails_before_export`: the single-tile grid over
bbox `(0,0,1,1)` with `max_tiles = 0` fails with `Too many tiles` before any
export request is built. -/
theorem too_many_tiles_fails_before_export_witness :
    bands_single_plan "EPSG:32720" 0 0 1 1 1 1 0 =
      .error (.tooManyTiles
        ((tile_rects "EPSG:32720" 0 0 1 1 1 1).2.rows *
          (tile_rects "EPSG:32720" 0 0 1 1 1 1).2.cols) 0) := by
  refine too_many_tiles_fails_before_export "EPSG:32720" 0 0 1 1 1 1 0 ?_
  rw [tile_rects_meta]
  simp

/-- Errors raised by `_parse_bbox` (gee_geoprocess.py:33-61). -/
inductive BBoxError where
  | invalidFormat
  | invalidDimensions
  | unitMismatch
deriving Repr, DecidableEq

/-- The rectangle geometry `_parse_bbox` returns:
`ee.Geometry.Rectangle([xmin, ymin, xmax, ymax], proj="EPSG:4326", geodesic=False)`. -/
structure RectGeom where
  xmin : ℚ
  ymin : ℚ
  xmax : ℚ
  ymax : ℚ
  proj : String
  geodesic : Bool
deriving Repr, DecidableEq

/-- `_parse_bbox` (gee_geoprocess.py:33-61) on the list of floats the bbox
string parsed to: exactly four values, `min < max` in both axes, then the
unit sanity check `abs(xmin) > 360 or abs(ymin) > 180` (only the two minima
are inspected), and finally the WGS84 non-geodesic rectangle. -/
def parse_bbox (parts : List ℚ) : Except BBoxError RectGeom :=
  match parts with
  | [xmin, ymin, xmax, ymax] =>
    if xmin ≥ xmax ∨ ymin ≥ ymax then .error .invalidDimensions
    else if |xmin| > 360 ∨ |ymin| > 180 then .error .unitMismatch
    else .ok ⟨xmin, ymin, xmax, ymax, "EPSG:4326", false⟩
  | _ => .error .invalidFormat

/-- **C4, counterexample**: the claim says any coordinate with `|x| > 360`
or `|y| > 180` is rejected with the unit-mismatch error, but `_parse_bbox`
only inspects `xmin` and `ymin`: the bbox `0,0,1000,10`, whose `xmax = 1000`
has magnitude above 360, is accepted and returned as a rectangle. -/
theorem parse_bbox_accepts_large_xmax :
    parse_bbox [0, 0, 1000, 10] = .ok ⟨0, 0, 1000, 10, "EPSG:4326", false⟩ ∧
    |(1000 : ℚ)| > 360 := by
  constructor
  · norm_num [parse_bbox]
  · norm_num

/-- **C4, amended**: for four parsed floats with `xmin < xmax` and
`ymin < ymax`, `_parse_bbox` rejects with the unit-mismatch error exactly when
`|xmin| > 360` or `|ymin| > 180` (the maxima are not checked); otherwise it
returns the WGS84, non-geodesic rectangle for those four values. -/
theorem parse_bbox_unit_mismatch_amended
    (xmin ymin xmax ymax : ℚ) (hx : xmin < xmax) (hy : ymin < ymax) :
    ((|xmin| > 360 ∨ |ymin| > 180) →
      parse_bbox [xmin, ymin, xmax, ymax] = .error .unitMismatch) ∧
    (|xmin| ≤ 360 → |ymin| ≤ 180 →
      parse_bbox [xmin, ymin, xmax, ymax] =
        .ok ⟨xmin, ymin, xmax, ymax, "EPSG:4326", false⟩) := by
  constructor
  · intro hbig
    simp only [parse_bbox]
    rw [if_neg (by push_neg; exact ⟨hx, hy⟩), if_pos hbig]
  · intro h1 h2
    simp only [parse_bbox]
    rw [if_neg (by push_neg; exact ⟨hx, hy⟩), if_neg (by push_neg; exact ⟨h1, h2⟩)]

/-- Witness for `parse_bbox_unit_mismatch_amended` at the bbox
`500,10,600,20` (projected-meter magnitudes): rejected as a unit mismatch. -/
theorem parse_bbox_unit_mismatch_amended_witness :
    parse_bbox [500, 10, 600, 20] = .error .unitMismatch :=
  (parse_bbox_unit_mismatch_amended 500 10 600 20 (by norm_num) (by norm_num)).1
    (by norm_num)

/-- Python's `str.upper()` restricted to the ASCII product-id alphabet used
by the calibration table. -/
def pyUpper (s : String) : String := String.mk (s.toList.map Char.toUpper)

/-- The per-product-family fallback of `_band_scale_offset`
(gee_geoprocess.py:423-455), taken when no per-band scale/offset metadata is
present (`s is None or o is None` with both still `None`):
`pid = (product + '|' + asset_id).upper()`, then the family table, then the
final fallback `(1.0, 0.0)`. -/
def band_scale_offset_fallback (product assetId band : String) : ℚ × ℚ :=
  let pid := pyUpper (product ++ "|" ++ assetId)
  let so : Option ℚ × Option ℚ :=
    if strContains pid "LANDSAT/LC08/C02/T1_L2" || strContains pid "LANDSAT/LC09/C02/T1_L2" then
      if strStarts band "SR_B" then (some 2.75e-5, some (-0.2))
      else if strStarts band "ST_B" then (some 0.00341802, some 149.0)
      else (none, none)
    else if strContains pid "COPERNICUS/S2_SR" then (some 1e-4, some 0.0)
    else if strContains pid "MODIS/" && (strContains pid "MOD11A1" || strContains pid "MYD11A1") then
      if strContains band "LST_" then (some 0.02, some 0.0)
      else if strContains band "Emis_" then (some 0.002, some 0.49)
      else (none, none)
    else (none, none)
  (so.1.getD 1.0, so.2.getD 0.0)

/-- **C5, counterexample**: the claim restricts the MODIS emissivity pair to
bands *starting with* `Emis_` and sends every other band to `(1.0, 0.0)`, but
the code tests *containment*: on `MODIS/061/MOD11A1` the band `X_Emis_1`,
which contains but does not start with `Emis_`, still gets `(0.002, 0.49)`
rather than the claimed `(1.0, 0.0)`. -/
theorem band_scale_offset_emis_containment_counterexample :
    band_scale_offset_fallback "MODIS/061/MOD11A1" "" "X_Emis_1" = (0.002, 0.49) ∧
    strStarts "X_Emis_1" "Emis_" = false ∧
    ¬((0.002 : ℚ) = 1.0 ∧ (0.49 : ℚ) = 0.0) := by
  refine ⟨?_, by decide, by norm_num⟩
  have hA : (strContains (pyUpper ("MODIS/061/MOD11A1" ++ "|" ++ "")) "LANDSAT/LC08/C02/T1_L2" ||
      strContains (pyUpper ("MODIS/061/MOD11A1" ++ "|" ++ "")) "LANDSAT/LC09/C02/T1_L2") = false := by
    decide
  have hB : strContains (pyUpper ("MODIS/061/MOD11A1" ++ "|" ++ "")) "COPERNICUS/S2_SR" = false := by
    decide
  have hC : (strContains (pyUpper ("MODIS/061/MOD11A1" ++ "|" ++ "")) "MODIS/" &&
      (strContains (pyUpper ("MODIS/061/MOD11A1" ++ "|" ++ "")) "MOD11A1" ||
       strContains (pyUpper ("MODIS/061/MOD11A1" ++ "|" ++ "")) "MYD11A1")) = true := by decide
  have hD : strContains "X_Emis_1" "LST_" = false := by decide
  have hE : strContains "X_Emis_1" "Emis_" = true := by decide
  simp only [band_scale_offset_fallback, hA, hB, hC, hD, hE]
  simp

/-- **C5, amended**: with per-band metadata absent, the fallback table of
`_band_scale_offset` returns `(2.75e-5, -0.2)` for Landsat LC08/LC09 C02 T1_L2
bands starting with `SR_B`, `(0.00341802, 149.0)` for those starting with
`ST_B`, `(1e-4, 0.0)` for Sentinel-2 SR products, `(0.02, 0.0)` for MODIS
MOD11A1/MYD11A1 bands *containing* `LST_`, `(0.002, 0.49)` for such bands
*containing* (not merely starting with) `Emis_`, and `(1.0, 0.0)` for every
unrecognized product family or band. -/
theorem band_scale_offset_fallback_table
    (product assetId band pid : String)
    (hpid : pid = pyUpper (product ++ "|" ++ assetId)) :
    ((strContains pid "LANDSAT/LC08/C02/T1_L2" ||
        strContains pid "LANDSAT/LC09/C02/T1_L2") = true →
      (strStarts band "SR_B" = true →
        band_scale_offset_fallback product assetId band = (2.75e-5, -0.2)) ∧
      (strStarts band "SR_B" = false → strStarts band "ST_B" = true →
        band_scale_offset_fallback product assetId band = (0.00341802, 149.0)) ∧
      (strStarts band "SR_B" = false → strStarts band "ST_B" = false →
        band_scale_offset_fallback product assetId band = (1.0, 0.0))) ∧
    ((strContains pid "LANDSAT/LC08/C02/T1_L2" ||
        strContains pid "LANDSAT/LC09/C02/T1_L2") = false →
      strContains pid "COPERNICUS/S2_SR" = true →
      band_scale_offset_fallback product assetId band = (1e-4, 0.0)) ∧
    ((strContains pid "LANDSAT/LC08/C02/T1_L2" ||
        strContains pid "LANDSAT/LC09/C02/T1_L2") = false →
      strContains pid "COPERNICUS/S2_SR" = false →
      (strContains pid "MODIS/" &&
        (strContains pid "MOD11A1" || strContains pid "MYD11A1")) = true →
      (strContains band "LST_" = true →
        band_scale_offset_fallback product assetId band = (0.02, 0.0)) ∧
      (strContains band "LST_" = false → strContains band "Emis_" = true →
        band_scale_offset_fallback product assetId band = (0.002, 0.49)) ∧
      (strContains band "LST_" = false → strContains band "Emis_" = false →
        band_scale_offset_fallback product assetId band = (1.0, 0.0))) ∧
    ((strContains pid "LANDSAT/LC08/C02/T1_L2" ||
        strContains pid "LANDSAT/LC09/C02/T1_L2") = false →
      strContains pid "COPERNICUS/S2_SR" = false →
      (strContains pid "MODIS/" &&
        (strContains pid "MOD11A1" || strContains pid "MYD11A1")) = false →
      band_scale_offset_fallback product assetId band = (1.0, 0.0)) := by
  subst hpid
  refine ⟨fun h1 => ⟨fun h2 => ?_, fun h2 h3 => ?_, fun h2 h3 => ?_⟩,
    fun h1 h2 => ?_,
    fun h1 h2 h3 => ⟨fun h4 => ?_, fun h4 h5 => ?_, fun h4 h5 => ?_⟩,
    fun h1 h2 h3 => ?_⟩ <;>
  · simp only [band_scale_offset_fallback, *]
    simp

/-- Witness for `band_scale_offset_fallback_table`: the Landsat LC08 C2 L2
surface-reflectance band `SR_B4` gets `(2.75e-5, -0.2)`. -/
theorem band_scale_offset_fallback_table_witness :
    band_scale_offset_fallback "LANDSAT/LC08/C02/T1_L2" "" "SR_B4" = (2.75e-5, -0.2) :=
  ((band_scale_offset_fallback_table "LANDSAT/LC08/C02/T1_L2" "" "SR_B4"
      (pyUpper ("LANDSAT/LC08/C02/T1_L2" ++ "|" ++ "")) rfl).1 (by decide)).1 (by decide)

/-- The soft MODIS surface-reflectance cloud mask `_mask_modis_sr`
(gee_geoprocess.py:174-191) as a per-pixel predicate on the `state_1km`
quality word: keep the pixel iff `(qa.bitwiseAnd(3).neq(1))` and
`(qa.rightShift(2).bitwiseAnd(1).eq(0))` and
`(qa.rightShift(8).bitwiseAnd(3).lte(1))`. -/
def mask_modis_sr_keep (q : ℕ) : Bool :=
  let cloud_state := q &&& 3
  let not_cloud : Bool := cloud_state != 1
  let no_shadow : Bool := (q >>> 2) &&& 1 == 0
  let cirrus_level := (q >>> 8) &&& 3
  let accept_cirrus : Bool := decide (cirrus_level ≤ 1)
  not_cloud && no_shadow && accept_cirrus

/-- **C7**: for every MODIS `state_1km` quality word `q`, the soft cloud mask
keeps a pixel iff the two-bit cloud state `q % 4` is not the definite-cloud
value 1 (mixed/unknown states are kept), the cloud-shadow bit
`(q >> 2) & 1` is clear, and the two-bit cirrus level `(q >> 8) & 3` is at
most 1 (none or small). -/
theorem modis_soft_mask_keep_iff (q : ℕ) :
    mask_modis_sr_keep q = true ↔
      (q % 4 ≠ 1 ∧ (q / 2 ^ 2) % 2 = 0 ∧ (q / 2 ^ 8) % 4 ≤ 1) := by
  have hand3 : ∀ m : ℕ, m &&& 3 = m % 4 := fun m => by
    have h := Nat.and_pow_two_sub_one_eq_mod m 2
    norm_num at h
    exact h
  have hs2 : q >>> 2 = q / 2 ^ 2 := Nat.shiftRight_eq_div_pow q 2
  have hs8 : q >>> 8 = q / 2 ^ 8 := Nat.shiftRight_eq_div_pow q 8
  simp only [mask_modis_sr_keep, Bool.and_eq_true, bne_iff_ne, beq_iff_eq,
    decide_eq_true_eq, hand3, hs2, hs8, Nat.and_one_is_mod]
  tauto

/-- Witness for `modis_soft_mask_keep_iff`: the all-clear quality word 0 is
kept. -/
theorem modis_soft_mask_keep_iff_witness : mask_modis_sr_keep 0 = true :=
  (modis_soft_mask_keep_iff 0).mpr (by norm_num)

/-- Earth Engine's `filterDate(start, end)` keeps an image iff its timestamp
lies in the half-open window `[start, end)`; this is the filter applied by
`_collection` (gee_geoprocess.py:396-400).  Dates are modelled as day indices
(`ℤ`), image timestamps as rational day counts. -/
def filter_date_keeps (s e : ℤ) (t : ℚ) : Bool := decide ((s : ℚ) ≤ t ∧ t < (e : ℚ))

/-- `bands_composite` (gee_geoprocess.py:697-701) computes
`end_iso = end + timedelta(days=1)` before calling `_collection`. -/
def composite_end_iso (e : ℤ) : ℤ := e + 1

/-- Whether an image with timestamp `t` enters the composite built by
`bands_composite` for the date range `[start, end]`. -/
def composite_keeps (s e : ℤ) (t : ℚ) : Bool := filter_date_keeps s (composite_end_iso e) t

/-- **C8, counterexample**: the claim says the composite collection is
restricted to `[start, end)` with acquisitions on the end date excluded, but
`bands_composite` first advances `end` by one day: for `start = 0`,
`end = 9`, an acquisition timestamped exactly on day 9 is kept, even though
it is outside `[0, 9)`. -/
theorem composite_includes_end_date :
    composite_keeps 0 9 (9 : ℚ) = true ∧ ¬((0 : ℚ) ≤ (9 : ℚ) ∧ (9 : ℚ) < (9 : ℚ)) := by
  constructor
  · simp only [composite_keeps, filter_date_keeps, composite_end_iso, decide_eq_true_eq]
    norm_num
  · norm_num

/-- **C8, amended**: the composite endpoints treat `end` as inclusive (its
query parameter is documented `YYYY-MM-DD inclusive`): the collection that is
reduced is restricted to the half-open window `[start, end + 1 day)`, so
acquisitions dated on the end date itself are included and only those from
the following day onwards are excluded. -/
theorem composite_keeps_iff (s e : ℤ) (t : ℚ) :
    composite_keeps s e t = true ↔ ((s : ℚ) ≤ t ∧ t < (e : ℚ) + 1) := by
  simp only [composite_keeps, filter_date_keeps, composite_end_iso, decide_eq_true_eq]
  push_cast
  tauto

/-- Witness for `composite_keeps_iff`: an acquisition on day 5 enters the
composite for the day range `[0, 9]`. -/
theorem composite_keeps_iff_witness : composite_keeps 0 9 5 = true :=
  (composite_keeps_iff 0 9 5).mpr (by norm_num)

/-- An HTTP response for one tile URL: status code and streamed body bytes. -/
structure HttpResponse where
  status : ℕ
  body : List ℕ
deriving Repr, DecidableEq

/-- Errors that abort a tile download batch. -/
inductive DownloadError where
  | httpStatus (code : ℕ)
  | exception (msg : String)
deriving Repr, DecidableEq

/-- A tile file written to the staging directory. -/
structure SavedFile where
  bytes : List ℕ
deriving Repr, DecidableEq

/-- `_download_file` (geoprocess_agent.py:589-599): `raise_for_status` raises
for 4xx/5xx responses; otherwise the body is streamed to disk and the written
size is only logged (`logger.debug`), never validated. -/
def download_file (resp : HttpResponse) : Except DownloadError SavedFile :=
  if 400 ≤ resp.status ∧ resp.status < 600 then .error (.httpStatus resp.status)
  else .ok ⟨resp.body⟩

/-- The environment the MODIS sinusoidal SRS repair step runs against: tool
availability (`shutil.which`), the outcome of the `gdalinfo -json` inspection
(`.error` = the subprocess raised; `.ok` = its stdout), and the outcome of
the `gdal_edit.py` rewrite. -/
structure SrsEnv where
  gdalEditFound : Bool
  gdalinfoFound : Bool
  inspectResult : Except String String
  editResult : Except String Unit
deriving Repr

/-- The body of `_maybe_fix_modis_sinusoidal_srs` (geoprocess_agent.py:631-660)
before its exception handler: return early when a GDAL tool is missing or the
raster is not MODIS-sinusoidal; propagate any subprocess exception. -/
def maybe_fix_modis_srs_core (env : SrsEnv) : Except String Bool :=
  if !env.gdalEditFound || !env.gdalinfoFound then .ok false
  else do
    let info ← env.inspectResult
    if !(strContains info "MODIS Sinusoidal" || strContains info "Sinusoidal") then
      pure false
    else do
      let _ ← env.editResult
      pure true

/-- `_maybe_fix_modis_sinusoidal_srs` (geoprocess_agent.py:627-663): the whole
body runs inside `try/except Exception`, whose handler only logs and falls
through to a normal return. -/
def maybe_fix_modis_sinusoidal_srs (env : SrsEnv) : Except String Unit :=
  match maybe_fix_modis_srs_core env with
  | .ok _ => .ok ()
  | .error _ => .ok ()

theorem maybe_fix_modis_srs_ok (env : SrsEnv) :
    maybe_fix_modis_sinusoidal_srs env = .ok () := by
  unfold maybe_fix_modis_sinusoidal_srs
  cases maybe_fix_modis_srs_core env <;> rfl

/-- `_download_tiles` (geoprocess_agent.py:601-614): the tiles are downloaded
sequentially; each downloaded file is passed through the SRS repair hook; the
first exception aborts the remaining batch.  (The staging-directory clearing
at entry does not affect the modelled value flow.) -/
def download_tiles : List (HttpResponse × SrsEnv) → Except DownloadError (List SavedFile)
  | [] => .ok []
  | (resp, env) :: rest => do
    let f ← download_file resp
    match maybe_fix_modis_sinusoidal_srs env with
    | .error e => .error (.exception e)
    | .ok _ => do
      let fs ← download_tiles rest
      pure (f :: fs)

/-- **C9, counterexample**: the claim says a zero-byte downloaded file is
treated as a failure that aborts the remaining batch, but `_download_file`
only logs the written size: a 200 response with an empty body is saved as a
zero-byte file, the batch continues and downloads the next tile, and the
whole batch succeeds. -/
theorem empty_download_not_a_failure :
    download_tiles [(⟨200, []⟩, ⟨false, false, .ok "", .ok ()⟩),
                    (⟨200, [7]⟩, ⟨false, false, .ok "", .ok ()⟩)] =
      .ok [⟨[]⟩, ⟨[7]⟩] ∧
    (⟨[]⟩ : SavedFile).bytes.length = 0 := by
  exact ⟨rfl, rfl⟩

/-- **C9, amended**: the downloader validates only the HTTP status of each
tile response: a batch whose responses all have non-error statuses succeeds
and saves every body verbatim — including zero-byte bodies, which are not
verified — while the first response with a 4xx/5xx status aborts the
remaining batch. -/
theorem download_tiles_http_status_only (items : List (HttpResponse × SrsEnv)) :
    ((∀ p ∈ items, ¬(400 ≤ p.1.status ∧ p.1.status < 600)) →
      download_tiles items = .ok (items.map fun p => ⟨p.1.body⟩)) ∧
    (∀ pre p post, items = pre ++ p :: post →
      (∀ p' ∈ pre, ¬(400 ≤ p'.1.status ∧ p'.1.status < 600)) →
      (400 ≤ p.1.status ∧ p.1.status < 600) →
      download_tiles items = .error (.httpStatus p.1.status)) := by
  constructor
  · induction items with
    | nil => intro; rfl
    | cons hd tl ih =>
      intro hok
      obtain ⟨resp, env⟩ := hd
      have hhd : ¬(400 ≤ resp.status ∧ resp.status < 600) :=
        hok (resp, env) (List.mem_cons_self _ _)
      have htl := ih fun p hp => hok p (List.mem_cons_of_mem _ hp)
      simp only [download_tiles, download_file, if_neg hhd, maybe_fix_modis_srs_ok,
        htl, List.map_cons]
      rfl
  · intro pre p post hitems hpre hbad
    subst hitems
    induction pre with
    | nil =>
      obtain ⟨resp, env⟩ := p
      simp only [List.nil_append, download_tiles, download_file, if_pos hbad]
      rfl
    | cons hd tl ih =>
      obtain ⟨resp, env⟩ := hd
      have hhd : ¬(400 ≤ resp.status ∧ resp.status < 600) :=
        hpre (resp, env) (List.mem_cons_self _ _)
      have htl := ih fun p' hp' => hpre p' (List.mem_cons_of_mem _ hp')
      simp only [List.cons_append, download_tiles, download_file, if_neg hhd,
        maybe_fix_modis_srs_ok, List.append_eq] at htl ⊢
      rw [htl]
      rfl

/-- Witness for `download_tiles_http_status_only`: a two-tile batch with 200
responses succeeds, saving both bodies. -/
theorem download_tiles_http_status_only_witness :
    download_tiles [(⟨200, [5]⟩, ⟨true, true, .ok "", .ok ()⟩),
                    (⟨200, [6]⟩, ⟨true, true, .ok "", .ok ()⟩)] =
      .ok [⟨[5]⟩, ⟨[6]⟩] :=
  (download_tiles_http_status_only
      [(⟨200, [5]⟩, ⟨true, true, .ok "", .ok ()⟩),
       (⟨200, [6]⟩, ⟨true, true, .ok "", .ok ()⟩)]).1 (by decide)

/-- **C10**: the post-download MODIS sinusoidal SRS repair step never raises:
whatever the environment — GDAL tools missing, inspection failing, the file
not being MODIS-sinusoidal, or the metadata rewrite failing — it returns
normally, and consequently the outcome of a tile batch depends only on the
HTTP responses, never on the SRS repair environments. -/
theorem modis_srs_fix_never_raises :
    (∀ env : SrsEnv, maybe_fix_modis_sinusoidal_srs env = .ok ()) ∧
    (∀ items₁ items₂ : List (HttpResponse × SrsEnv),
      items₁.map Prod.fst = items₂.map Prod.fst →
      download_tiles items₁ = download_tiles items₂) := by
  refine ⟨maybe_fix_modis_srs_ok, ?_⟩
  intro items₁
  induction items₁ with
  | nil =>
    intro items₂ h
    cases items₂ with
    | nil => rfl
    | cons hd tl => simp at h
  | cons hd tl ih =>
    intro items₂ h
    cases items₂ with
    | nil => simp at h
    | cons hd₂ tl₂ =>
      simp only [List.map_cons, List.cons.injEq] at h
      obtain ⟨hfst, htl⟩ := h
      obtain ⟨resp, env⟩ := hd
      obtain ⟨resp₂, env₂⟩ := hd₂
      simp only at hfst
      subst hfst
      simp only [download_tiles, maybe_fix_modis_srs_ok, ih tl₂ htl]

/-- Witness for `modis_srs_fix_never_raises`: two batches with the same
responses but opposite repair environments (all tools present but the rewrite
raising, versus all tools missing) download identically. -/
theorem modis_srs_fix_never_raises_witness :
    download_tiles [(⟨200, [1]⟩, ⟨true, true, .ok "MODIS Sinusoidal", .error "edit failed"⟩)] =
      download_tiles [(⟨200, [1]⟩, ⟨false, false, .ok "", .ok ()⟩)] :=
  (modis_srs_fix_never_raises).2
    [(⟨200, [1]⟩, ⟨true, true, .ok "MODIS Sinusoidal", .error "edit failed"⟩)]
    [(⟨200, [1]⟩, ⟨false, false, .ok "", .ok ()⟩)] rfl

/-- `int(x)` of a real square root: `⌊√q⌋ = Nat.sqrt ⌊q⌋` for `q ≥ 0`,
modelling `math.sqrt` exactly over the reals. -/
def intSqrt (q : ℚ) : ℕ := Nat.sqrt ⌊q⌋.toNat

/-- `_approx_dims_from_bbox_and_scale` (gee_geoprocess.py:90-101).  The
cosine of the mid-latitude (`math.cos(math.radians(lat_mid))`, a
transcendental value) is passed in as `cosLatMid`; at the inputs used below
the mid-latitude is `0` and the cosine is exactly `1`. -/
def approx_dims_from_bbox_and_scale
    (xmin ymin xmax ymax cosLatMid scale : ℚ) : ℕ × ℕ :=
  let m_per_deg_lat : ℚ := 111320
  let m_per_deg_lon : ℚ := 111320 * cosLatMid
  let width_m := max ((xmax - xmin) * m_per_deg_lon) 0
  let height_m := max ((ymax - ymin) * m_per_deg_lat) 0
  if scale ≤ 0 then (0, 0)
  else
    ((max (pyRound (width_m / scale)) 1).toNat,
     (max (pyRound (height_m / scale)) 1).toNat)

/-- The two request modes `_safe_download_params` can emit: an explicit
`scale` entry (and no `dimensions`), or an explicit `dimensions` entry
(and no `scale`). -/
inductive DownloadSizing where
  | byScale (scale : ℚ)
  | byDimensions (width height : ℕ)
deriving Repr, DecidableEq

/-- The internal payload ceiling of `_safe_download_params`
(gee_geoprocess.py:330): 45 MiB of headroom under the backend's ~48 MB cap. -/
def limit_bytes : ℕ := 45 * 1024 * 1024

/-- The size decision of `_safe_download_params` (gee_geoprocess.py:323-342):
estimate `w_px*h_px*bands*4` bytes; at or below the ceiling use scale-mode,
otherwise shrink isotropically by `ratio = sqrt(area/max_pixels)` and use
dimensions-mode.  `int(w_px/ratio)` is modelled exactly over the reals as
`⌊√(w_px² · max_pixels / area)⌋` (for `max_pixels = 0`, reachable only for
band counts above ~11.8 million where Python would raise `ZeroDivisionError`,
the model yields `1x1`). -/
def safe_download_sizing (w_px0 h_px0 bands_count : ℕ) (scale : ℚ) : DownloadSizing :=
  let w_px := if w_px0 = 0 ∨ h_px0 = 0 then 1 else w_px0
  let h_px := if w_px0 = 0 ∨ h_px0 = 0 then 1 else h_px0
  let bands := max bands_count 1
  let bytes_per_sample := 4
  let est_bytes := w_px * h_px * bands * bytes_per_sample
  if est_bytes ≤ limit_bytes then .byScale scale
  else
    let max_pixels := limit_bytes / (bands * bytes_per_sample)
    let area := max (w_px * h_px) 1
    let new_w := max (intSqrt (((w_px ^ 2 * max_pixels : ℕ) : ℚ) / ((area : ℕ) : ℚ))) 1
    let new_h := max (intSqrt (((h_px ^ 2 * max_pixels : ℕ) : ℚ) / ((area : ℕ) : ℚ))) 1
    .byDimensions new_w new_h

/-- **C3** is a code bug: on the valid bbox `0,-89.99,0.000001,89.99`
(mid-latitude 0, so `cos = 1` exactly) with resolved `scale = 1` and one
band, the estimated dims are `1 x 20035374`; the estimate exceeds the
ceiling, so dimensions-mode is chosen, but clamping the shrunk width to the
1-pixel minimum breaks the isotropic area bound: the emitted
`width*height*bandCount*4 = 1*15373577*1*4` bytes is about 61.5 MB, above
the 45 MiB ceiling (and the backend's ~48 MB hard cap) that
`_safe_download_params` is documented to stay under. -/
theorem safe_download_params_exceeds_ceiling :
    approx_dims_from_bbox_and_scale 0 (-(8999 / 100)) (1 / 1000000) (8999 / 100) 1 1 =
      (1, 20035374) ∧
    safe_download_sizing 1 20035374 1 1 = .byDimensions 1 15373577 ∧
    1 * 15373577 * 1 * 4 > limit_bytes := by
  refine ⟨?_, ?_, ?_⟩
  · -- the estimated pixel dimensions of the sliver bbox
    have hf1 : ⌊(2783 / 25000 : ℚ)⌋ = 0 := by
      rw [Int.floor_eq_iff] <;> norm_num
    have hf2 : ⌊(100176868 / 5 : ℚ)⌋ = 20035373 := by
      rw [Int.floor_eq_iff] <;> norm_num
    have harg1 : max (((1 : ℚ) / 1000000 - 0) * (111320 * 1)) 0 / 1 = 2783 / 25000 := by
      norm_num
    have harg2 : max ((8999 / 100 - -(8999 / 100) : ℚ) * 111320) 0 / 1 = 100176868 / 5 := by
      norm_num
    have hr1 : pyRound (2783 / 25000 : ℚ) = 0 := by
      unfold pyRound
      rw [hf1]
      norm_num
    have hr2 : pyRound (100176868 / 5 : ℚ) = 20035374 := by
      unfold pyRound
      rw [hf2]
      norm_num
    simp only [approx_dims_from_bbox_and_scale, harg1, harg2, hr1, hr2]
    norm_num
    decide
  · -- the sizing switches to dimensions-mode with the clamped 1-pixel width
    have hq1 : (((1 ^ 2 * (limit_bytes / (max 1 1 * 4)) : ℕ) : ℚ) /
        ((max (1 * 20035374) 1 : ℕ) : ℚ)) = 11796480 / 20035374 := by
      norm_num [limit_bytes]
    have hq2 : (((20035374 ^ 2 * (limit_bytes / (max 1 1 * 4)) : ℕ) : ℚ) /
        ((max (1 * 20035374) 1 : ℕ) : ℚ)) = ((236346888683520 : ℤ) : ℚ) := by
      norm_num [limit_bytes]
    have hw : intSqrt (((1 ^ 2 * (limit_bytes / (max 1 1 * 4)) : ℕ) : ℚ) /
        ((max (1 * 20035374) 1 : ℕ) : ℚ)) = 0 := by
      rw [hq1]
      unfold intSqrt
      have hfl : ⌊(11796480 / 20035374 : ℚ)⌋ = 0 := by
        rw [Int.floor_eq_iff] <;> norm_num
      rw [hfl]
      simp
    have hh : intSqrt (((20035374 ^ 2 * (limit_bytes / (max 1 1 * 4)) : ℕ) : ℚ) /
        ((max (1 * 20035374) 1 : ℕ) : ℚ)) = 15373577 := by
      rw [hq2]
      unfold intSqrt
      rw [Int.floor_intCast]
      have htn : Int.toNat 236346888683520 = 236346888683520 := rfl
      rw [htn]
      norm_num
    have hcond : ¬((1 : ℕ) = 0 ∨ (20035374 : ℕ) = 0) := by norm_num
    have hnotle : ¬(1 * 20035374 * max 1 1 * 4 ≤ limit_bytes) := by
      show ¬(1 * 20035374 * max 1 1 * 4 ≤ 45 * 1024 * 1024)
      norm_num
    simp only [safe_download_sizing, hcond, ite_false, if_false]
    rw [if_neg hnotle]
    rw [hw, hh, Nat.max_eq_left (show 1 ≤ 15373577 by norm_num)]
    norm_num
  · -- the resulting payload exceeds the ceiling
    show 45 * 1024 * 1024 < 1 * 15373577 * 1 * 4
    norm_num

end GeoProc
